import Mathlib

/-
Verification of the KTH-EXPECA/python-chi repository.

The development shallowly embeds the functions of `src/chi/expeca.py` and
`src/chi/lease.py` that the claims concern.  External effects are made
explicit parameters:

* the status values returned by the remote service during a polling loop are
  a function `statusAt : Nat → Option String`, where `statusAt k` is the
  value obtained by the k-th status query of the loop (Python `None` is
  `Option.none`);
* wall-clock time advances by the sleep period once per loop iteration, and
  the entry time is 0, so `mustend = time.time() + TIMEOUT` becomes
  `mustend = TIMEOUT`;
* raising an exception is modelled by a dedicated result constructor which
  carries the message of the exception;
* logging is not modelled (it has no effect on control flow or results).
-/

/-! ## Constants of `src/chi/expeca.py` (lines 9-16) -/

def CONTAINER_STATUS_CHECK_TIMEOUT_SEC : Nat := 30

def CONTAINER_STATUS_CHECK_PERIOD_SEC : Nat := 5

def LEASE_STATUS_CHECK_TIMEOUT_SEC : Nat := 120

def LEASE_STATUS_CHECK_PERIOD_SEC : Nat := 5

def CREATE_LEASE_RETRY_NUM : Nat := 2

def CREATE_LEASE_RETRY_PERIOD_SEC : Nat := 5

def REMOVE_LEASE_RETRY_NUM : Nat := 1

def REMOVE_LEASE_RETRY_PERIOD_SEC : Nat := 5

/-- Rendering of a Python value of type `Optional[str]` inside an f-string:
`None` prints as `"None"`, a string prints as itself. -/
def pyStr : Option String → String
  | none => "None"
  | some s => s

/-! ## `wait_until_lease_status` (expeca.py lines 131-152)

```
mustend = time.time() + LEASE_STATUS_CHECK_TIMEOUT_SEC
while time.time() < mustend:
    time.sleep(LEASE_STATUS_CHECK_PERIOD_SEC)
    status = get_lease_status(leaseid)
    if status == desiredstatus:
        return
    elif status == "ERROR":
        if not erroneouslease:
            raise BlazarClientException(message="unknown")
raise BlazarClientException(message=f"timeout reached, lease ... is stuck in ...")
```
-/

/-- Outcome of a call to `wait_until_lease_status`: either a normal return,
or a raised `BlazarClientException` from the `status == "ERROR"` branch
(message `"unknown"`), or a raised `BlazarClientException` from the timeout
line, carrying the formatted message. -/
inductive LeaseWaitResult
  | success
  | errorRaised (msg : String)
  | timeoutRaised (msg : String)
  deriving DecidableEq, Repr

/-- The `while time.time() < mustend` loop of `wait_until_lease_status`.
`t` is the current time, `i` the index of the next status query, `last` the
current value of the Python variable `status` (used by the timeout message).
Each iteration first sleeps `LEASE_STATUS_CHECK_PERIOD_SEC` (advancing `t`)
and then queries `get_lease_status(leaseid)`, whose successive results form
the abstract stream `statusAt`.  The function also returns the total number
of status queries performed. -/
def waitLeaseGo (leaseid leasename : String) (desired : Option String)
    (erroneouslease : Bool) (statusAt : Nat → Option String)
    (mustend t i : Nat) (last : Option String) : LeaseWaitResult × Nat :=
  if t < mustend then
    if statusAt i = desired then (.success, i + 1)
    else if statusAt i = some "ERROR" ∧ erroneouslease = false then
      (.errorRaised "unknown", i + 1)
    else waitLeaseGo leaseid leasename desired erroneouslease statusAt mustend
      (t + LEASE_STATUS_CHECK_PERIOD_SEC) (i + 1) (statusAt i)
  else
    (.timeoutRaised ("timeout reached, lease " ++ leasename ++ " with id " ++ leaseid ++
      " is stuck in " ++ pyStr last ++ "."), i)
termination_by mustend - t
decreasing_by simp only [LEASE_STATUS_CHECK_PERIOD_SEC]; omega

/-- Model of `wait_until_lease_status(leaseid, leasename, desiredstatus, erroneouslease)`,
with the stream of statuses observed by its queries as an explicit argument.
Returns the outcome together with the number of status queries performed. -/
def wait_until_lease_status (leaseid leasename : String) (desired : Option String)
    (erroneouslease : Bool) (statusAt : Nat → Option String) : LeaseWaitResult × Nat :=
  waitLeaseGo leaseid leasename desired erroneouslease statusAt
    LEASE_STATUS_CHECK_TIMEOUT_SEC 0 0 none

/-! ## `wait_until_container_removed` (expeca.py lines 104-117) -/

/-- Outcome of a call to `wait_until_container_removed`: normal return when a
query observed `None`, or a raised generic `Exception` with the formatted
timeout message. -/
inductive ContainerWaitResult
  | removed
  | timeoutRaised (msg : String)
  deriving DecidableEq, Repr

/-- The `while time.time() < mustend` loop of `wait_until_container_removed`,
in the same style as `waitLeaseGo`: the statuses observed by the successive
`get_container_status(containername)` queries form the stream `statusAt`. -/
def waitContainerGo (containername : String) (statusAt : Nat → Option String)
    (mustend t i : Nat) (last : Option String) : ContainerWaitResult × Nat :=
  if t < mustend then
    if statusAt i = none then (.removed, i + 1)
    else waitContainerGo containername statusAt mustend
      (t + CONTAINER_STATUS_CHECK_PERIOD_SEC) (i + 1) (statusAt i)
  else
    (.timeoutRaised ("timeout reached, container " ++ containername ++
      " is stuck in " ++ pyStr last ++ "."), i)
termination_by mustend - t
decreasing_by simp only [CONTAINER_STATUS_CHECK_PERIOD_SEC]; omega

/-- Model of `wait_until_container_removed(containername)`, with the stream of
`get_container_status` results as an explicit argument.  Returns the outcome
together with the number of status queries performed. -/
def wait_until_container_removed (containername : String)
    (statusAt : Nat → Option String) : ContainerWaitResult × Nat :=
  waitContainerGo containername statusAt CONTAINER_STATUS_CHECK_TIMEOUT_SEC 0 0 none

/-! ## Characterization of the two polling loops -/

theorem waitLeaseGo_spec (leaseid leasename : String) (desired : Option String)
    (err : Bool) (statusAt : Nat → Option String) (mustend : Nat) :
    ∀ t i last, ∀ r n,
      waitLeaseGo leaseid leasename desired err statusAt mustend t i last = (r, n) →
      (i ≤ n ∧ n ≤ i + (mustend - t + 4) / 5) ∧
      (t < mustend → i < n) ∧
      (∀ j, i ≤ j → j + 1 < n →
        statusAt j ≠ desired ∧ ¬(statusAt j = some "ERROR" ∧ err = false)) ∧
      (r = .success → i < n ∧ statusAt (n - 1) = desired) ∧
      (∀ msg, r = .errorRaised msg →
        i < n ∧ msg = "unknown" ∧ statusAt (n - 1) ≠ desired ∧
        statusAt (n - 1) = some "ERROR" ∧ err = false) ∧
      (∀ msg, r = .timeoutRaised msg →
        n = i + (mustend - t + 4) / 5 ∧
        (∀ j, i ≤ j → j < n →
          statusAt j ≠ desired ∧ ¬(statusAt j = some "ERROR" ∧ err = false)) ∧
        msg = "timeout reached, lease " ++ leasename ++ " with id " ++ leaseid ++
          " is stuck in " ++ pyStr (if i < n then statusAt (n - 1) else last) ++ ".") ∧
      (i < n → statusAt (n - 1) = desired → r = .success) ∧
      (i < n → statusAt (n - 1) ≠ desired → statusAt (n - 1) = some "ERROR" →
        err = false → r = .errorRaised "unknown") := by
  intro t i last
  induction t, i, last using waitLeaseGo.induct leaseid leasename desired err statusAt mustend with
  | case1 t i last ht hdes =>
    intro r n h
    rw [waitLeaseGo, if_pos ht, if_pos hdes] at h
    injection h with h1 h2
    subst h1; subst h2
    simp only [Nat.add_sub_cancel]
    refine ⟨by omega, by omega, ?_, fun _ => ⟨by omega, hdes⟩, ?_, ?_, fun _ _ => trivial, ?_⟩
    · intro j hj1 hj2; exact absurd hj1 (by omega)
    · intro msg hmsg; exact absurd hmsg (by simp)
    · intro msg hmsg; exact absurd hmsg (by simp)
    · intro _ hne; exact absurd hdes hne
  | case2 t i last ht hdes herr =>
    intro r n h
    rw [waitLeaseGo, if_pos ht, if_neg hdes, if_pos herr] at h
    injection h with h1 h2
    subst h1; subst h2
    simp only [Nat.add_sub_cancel]
    refine ⟨by omega, by omega, ?_, ?_, ?_, ?_, ?_, ?_⟩
    · intro j hj1 hj2; exact absurd hj1 (by omega)
    · intro hmsg; exact absurd hmsg (by simp)
    · intro msg hmsg
      refine ⟨by omega, ?_, hdes, herr.1, herr.2⟩
      injection hmsg with h3
      exact h3.symm
    · intro msg hmsg; exact absurd hmsg (by simp)
    · intro _ habs; exact absurd habs hdes
    · intro _ _ _ _; trivial
  | case3 t i last ht hdes herr ih =>
    intro r n h
    rw [waitLeaseGo, if_pos ht, if_neg hdes, if_neg herr] at h
    have spec := ih r n h
    simp only [LEASE_STATUS_CHECK_PERIOD_SEC] at spec
    obtain ⟨⟨hb1, hb2⟩, hlt, hmid, hsucc, herrr, htime, hcomp1, hcomp2⟩ := spec
    have hin : i + 1 ≤ n := hb1
    refine ⟨⟨by omega, by omega⟩, fun _ => by omega, ?_, ?_, ?_, ?_, ?_, ?_⟩
    · intro j hj1 hj2
      rcases Nat.eq_or_lt_of_le hj1 with hj | hj
      · subst hj; exact ⟨hdes, herr⟩
      · exact hmid j hj hj2
    · intro hr
      obtain ⟨h1, h2⟩ := hsucc hr
      exact ⟨by omega, h2⟩
    · intro msg hmsg
      obtain ⟨h1, h2, h3, h4, h5⟩ := herrr msg hmsg
      exact ⟨by omega, h2, h3, h4, h5⟩
    · intro msg hmsg
      obtain ⟨h1, h2, h3⟩ := htime msg hmsg
      refine ⟨by omega, ?_, ?_⟩
      · intro j hj1 hj2
        rcases Nat.eq_or_lt_of_le hj1 with hj | hj
        · subst hj; exact ⟨hdes, herr⟩
        · exact h2 j hj hj2
      · rw [h3]
        rcases Nat.eq_or_lt_of_le hin with hn | hn
        · rw [if_neg (by omega), if_pos (by omega)]
          rw [← hn]
          simp only [Nat.add_sub_cancel]
        · rw [if_pos hn, if_pos (by omega)]
    · intro _ hlast
      rcases Nat.eq_or_lt_of_le hin with hn | hn
      · exfalso
        rw [← hn] at hlast
        simp only [Nat.add_sub_cancel] at hlast
        exact hdes hlast
      · exact hcomp1 hn hlast
    · intro _ hlast1 hlast2 hlast3
      rcases Nat.eq_or_lt_of_le hin with hn | hn
      · exfalso
        rw [← hn] at hlast2
        simp only [Nat.add_sub_cancel] at hlast2
        exact herr ⟨hlast2, hlast3⟩
      · exact hcomp2 hn hlast1 hlast2 hlast3
  | case4 t i last ht =>
    intro r n h
    rw [waitLeaseGo, if_neg ht] at h
    injection h with h1 h2
    subst h1; subst h2
    refine ⟨⟨by omega, by omega⟩, fun habs => absurd habs ht, ?_, ?_, ?_, ?_, ?_, ?_⟩
    · intro j hj1 hj2; exact absurd hj1 (by omega)
    · intro hmsg; exact absurd hmsg (by simp)
    · intro msg hmsg; exact absurd hmsg (by simp)
    · intro msg hmsg
      refine ⟨by omega, ?_, ?_⟩
      · intro j hj1 hj2; exact absurd hj1 (by omega)
      · injection hmsg with h3
        rw [← h3, if_neg (by omega)]
    · intro habs; exact absurd habs (by omega)
    · intro habs; exact absurd habs (by omega)

theorem waitContainerGo_spec (containername : String) (statusAt : Nat → Option String)
    (mustend : Nat) :
    ∀ t i last, ∀ r n,
      waitContainerGo containername statusAt mustend t i last = (r, n) →
      (i ≤ n ∧ n ≤ i + (mustend - t + 4) / 5) ∧
      (t < mustend → i < n) ∧
      (∀ j, i ≤ j → j + 1 < n → statusAt j ≠ none) ∧
      (r = .removed → i < n ∧ statusAt (n - 1) = none) ∧
      (∀ msg, r = .timeoutRaised msg →
        n = i + (mustend - t + 4) / 5 ∧
        (∀ j, i ≤ j → j < n → statusAt j ≠ none) ∧
        msg = "timeout reached, container " ++ containername ++
          " is stuck in " ++ pyStr (if i < n then statusAt (n - 1) else last) ++ ".") ∧
      (i < n → statusAt (n - 1) = none → r = .removed) := by
  intro t i last
  induction t, i, last using waitContainerGo.induct containername statusAt mustend with
  | case1 t i last ht hdes =>
    intro r n h
    rw [waitContainerGo, if_pos ht, if_pos hdes] at h
    injection h with h1 h2
    subst h1; subst h2
    simp only [Nat.add_sub_cancel]
    refine ⟨by omega, by omega, ?_, fun _ => ⟨by omega, hdes⟩, ?_, fun _ _ => trivial⟩
    · intro j hj1 hj2; exact absurd hj1 (by omega)
    · intro msg hmsg; exact absurd hmsg (by simp)
  | case2 t i last ht hdes ih =>
    intro r n h
    rw [waitContainerGo, if_pos ht, if_neg hdes] at h
    have spec := ih r n h
    simp only [CONTAINER_STATUS_CHECK_PERIOD_SEC] at spec
    obtain ⟨⟨hb1, hb2⟩, hlt, hmid, hrem, htime, hcomp⟩ := spec
    have hin : i + 1 ≤ n := hb1
    refine ⟨⟨by omega, by omega⟩, fun _ => by omega, ?_, ?_, ?_, ?_⟩
    · intro j hj1 hj2
      rcases Nat.eq_or_lt_of_le hj1 with hj | hj
      · subst hj; exact hdes
      · exact hmid j hj hj2
    · intro hr
      obtain ⟨h1, h2⟩ := hrem hr
      exact ⟨by omega, h2⟩
    · intro msg hmsg
      obtain ⟨h1, h2, h3⟩ := htime msg hmsg
      refine ⟨by omega, ?_, ?_⟩
      · intro j hj1 hj2
        rcases Nat.eq_or_lt_of_le hj1 with hj | hj
        · subst hj; exact hdes
        · exact h2 j hj hj2
      · rw [h3]
        rcases Nat.eq_or_lt_of_le hin with hn | hn
        · rw [if_neg (by omega), if_pos (by omega)]
          rw [← hn]
          simp only [Nat.add_sub_cancel]
        · rw [if_pos hn, if_pos (by omega)]
    · intro _ hlast
      rcases Nat.eq_or_lt_of_le hin with hn | hn
      · exfalso
        rw [← hn] at hlast
        simp only [Nat.add_sub_cancel] at hlast
        exact hdes hlast
      · exact hcomp hn hlast
  | case3 t i last ht =>
    intro r n h
    rw [waitContainerGo, if_neg ht] at h
    injection h with h1 h2
    subst h1; subst h2
    refine ⟨⟨by omega, by omega⟩, fun habs => absurd habs ht, ?_, ?_, ?_, ?_⟩
    · intro j hj1 hj2; exact absurd hj1 (by omega)
    · intro hmsg; exact absurd hmsg (by simp)
    · intro msg hmsg
      refine ⟨by omega, ?_, ?_⟩
      · intro j hj1 hj2; exact absurd hj1 (by omega)
      · injection hmsg with h3
        rw [← h3, if_neg (by omega)]
    · intro habs; exact absurd habs (by omega)

/-- Characterization of `wait_until_lease_status`: between 1 and 24 status
queries happen; the loop keeps polling exactly until a query triggers a
return or a raise; a normal return happens exactly when the last observed
status equals the desired status; the error raise carries message
`"unknown"` and happens exactly on observing `"ERROR"` with
`erroneouslease = False`; the timeout raise happens after query number
`24 = LEASE_STATUS_CHECK_TIMEOUT_SEC / LEASE_STATUS_CHECK_PERIOD_SEC` and
its message embeds the lease name, the lease id and the last observed
status. -/
theorem wait_until_lease_status_spec (leaseid leasename : String)
    (desired : Option String) (err : Bool) (statusAt : Nat → Option String)
    (r : LeaseWaitResult) (n : Nat)
    (h : wait_until_lease_status leaseid leasename desired err statusAt = (r, n)) :
    (1 ≤ n ∧ n ≤ 24) ∧
    (∀ j, j + 1 < n →
      statusAt j ≠ desired ∧ ¬(statusAt j = some "ERROR" ∧ err = false)) ∧
    (r = .success ↔ statusAt (n - 1) = desired) ∧
    (∀ msg, r = .errorRaised msg →
      msg = "unknown" ∧ statusAt (n - 1) ≠ desired ∧
      statusAt (n - 1) = some "ERROR" ∧ err = false) ∧
    (statusAt (n - 1) ≠ desired → statusAt (n - 1) = some "ERROR" →
      err = false → r = .errorRaised "unknown") ∧
    (∀ msg, r = .timeoutRaised msg →
      n = 24 ∧
      (∀ j, j < n → statusAt j ≠ desired ∧ ¬(statusAt j = some "ERROR" ∧ err = false)) ∧
      msg = "timeout reached, lease " ++ leasename ++ " with id " ++ leaseid ++
        " is stuck in " ++ pyStr (statusAt (n - 1)) ++ ".") := by
  have spec := waitLeaseGo_spec leaseid leasename desired err statusAt
    LEASE_STATUS_CHECK_TIMEOUT_SEC 0 0 none r n h
  simp only [LEASE_STATUS_CHECK_TIMEOUT_SEC] at spec
  obtain ⟨⟨hb1, hb2⟩, hlt, hmid, hsucc, herrr, htime, hcomp1, hcomp2⟩ := spec
  have hpos : 1 ≤ n := hlt (by omega)
  refine ⟨⟨hpos, by omega⟩, ?_, ⟨fun hr => (hsucc hr).2, fun hlast => hcomp1 (by omega) hlast⟩,
    ?_, fun h1 h2 h3 => hcomp2 (by omega) h1 h2 h3, ?_⟩
  · intro j hj; exact hmid j (by omega) hj
  · intro msg hmsg
    obtain ⟨h1, h2, h3, h4, h5⟩ := herrr msg hmsg
    exact ⟨h2, h3, h4, h5⟩
  · intro msg hmsg
    obtain ⟨h1, h2, h3⟩ := htime msg hmsg
    refine ⟨by omega, fun j hj => h2 j (by omega) hj, ?_⟩
    rw [h3, if_pos (by omega)]

/-- Characterization of `wait_until_container_removed`: between 1 and 6
status queries happen; the loop returns normally exactly when the last
observed status is `None`, every earlier query observed a non-`None` status,
and the timeout raise happens after query number
`6 = CONTAINER_STATUS_CHECK_TIMEOUT_SEC / CONTAINER_STATUS_CHECK_PERIOD_SEC`
with a message embedding the container name and the last observed status. -/
theorem wait_until_container_removed_spec (containername : String)
    (statusAt : Nat → Option String) (r : ContainerWaitResult) (n : Nat)
    (h : wait_until_container_removed containername statusAt = (r, n)) :
    (1 ≤ n ∧ n ≤ 6) ∧
    (∀ j, j + 1 < n → statusAt j ≠ none) ∧
    (r = .removed ↔ statusAt (n - 1) = none) ∧
    (∀ msg, r = .timeoutRaised msg →
      n = 6 ∧ (∀ j, j < n → statusAt j ≠ none) ∧
      msg = "timeout reached, container " ++ containername ++
        " is stuck in " ++ pyStr (statusAt (n - 1)) ++ ".") := by
  have spec := waitContainerGo_spec containername statusAt
    CONTAINER_STATUS_CHECK_TIMEOUT_SEC 0 0 none r n h
  simp only [CONTAINER_STATUS_CHECK_TIMEOUT_SEC] at spec
  obtain ⟨⟨hb1, hb2⟩, hlt, hmid, hrem, htime, hcomp⟩ := spec
  have hpos : 1 ≤ n := hlt (by omega)
  refine ⟨⟨hpos, by omega⟩, ?_, ⟨fun hr => (hrem hr).2, fun hlast => hcomp (by omega) hlast⟩, ?_⟩
  · intro j hj; exact hmid j (by omega) hj
  · intro msg hmsg
    obtain ⟨h1, h2, h3⟩ := htime msg hmsg
    refine ⟨by omega, fun j hj => h2 j (by omega) hj, ?_⟩
    rw [h3, if_pos (by omega)]

/-! ## `remove_lease` (expeca.py lines 154-190)

```
retries_left = 1+REMOVE_LEASE_RETRY_NUM
while retries_left > 0:
    if try_to_remove():
        break
    retries_left=retries_left-1
    if retries_left <= 0:
        logger.error(...)          # give up (no exception is raised)
    else:
        logger.info(...)
        time.sleep(REMOVE_LEASE_RETRY_PERIOD_SEC)
```
-/

/-- Result of a bounded-retry loop: whether some attempt succeeded, how many
times the fallible operation was invoked, and how many times the loop slept
for the retry period between consecutive attempts.  Giving up is a normal
return (`succeeded = false`), not an exception. -/
structure RetryResult where
  succeeded : Bool
  attempts : Nat
  sleeps : Nat
  deriving DecidableEq, Repr

/-- The `while retries_left > 0` loop of `remove_lease`.  `att j` is the
result of the j-th execution of the inner closure `try_to_remove` (which
catches every `BlazarClientException` and returns `False` for it), `k` the
number of attempts made so far, `s` the number of sleeps so far.  The branch
`r = 0` is the decrement of `retries_left` to 0: the loop logs "giving up"
and its condition then fails, without sleeping again. -/
def removeLeaseGo (att : Nat → Bool) : Nat → Nat → Nat → RetryResult
  | 0, k, s => ⟨false, k, s⟩
  | r + 1, k, s =>
    if att k then ⟨true, k + 1, s⟩
    else if r = 0 then ⟨false, k + 1, s⟩
    else removeLeaseGo att r (k + 1) (s + 1)

/-- Model of `remove_lease(leaseid, leasename, erroneouslease)`: the retry loop
entered with `retries_left = 1 + REMOVE_LEASE_RETRY_NUM`.  The outcomes of
the successive `try_to_remove` executions are the abstract stream `att`. -/
def remove_lease (att : Nat → Bool) : RetryResult :=
  removeLeaseGo att (1 + REMOVE_LEASE_RETRY_NUM) 0 0


theorem removeLeaseGo_spec (att : Nat → Bool) :
    ∀ rl k s su na ns, removeLeaseGo att rl k s = ⟨su, na, ns⟩ → 0 < rl →
      (k < na ∧ na ≤ k + rl) ∧
      ns = s + (na - k - 1) ∧
      (su = true → att (na - 1) = true) ∧
      (∀ j, k ≤ j → j + 1 < na → att j = false) ∧
      (su = false → na = k + rl ∧ ∀ j, k ≤ j → j < k + rl → att j = false) := by
  intro rl
  induction rl with
  | zero => intro k s su na ns _ habs; exact absurd habs (by omega)
  | succ r ih =>
    intro k s su na ns h _
    rw [removeLeaseGo] at h
    by_cases hk : att k
    · rw [if_pos hk] at h
      injection h with h1 h2 h3
      subst h1; subst h2; subst h3
      refine ⟨⟨by omega, by omega⟩, by omega, fun _ => by simpa using hk, ?_, ?_⟩
      · intro j hj1 hj2; exact absurd hj1 (by omega)
      · intro habs; simp at habs
    · rw [if_neg hk] at h
      by_cases hr : r = 0
      · rw [if_pos hr] at h
        injection h with h1 h2 h3
        subst h1; subst h2; subst h3
        subst hr
        refine ⟨⟨by omega, by omega⟩, by omega, ?_, ?_, ?_⟩
        · intro habs; simp at habs
        · intro j hj1 hj2; exact absurd hj1 (by omega)
        · intro _
          refine ⟨by omega, ?_⟩
          intro j hj1 hj2
          have : j = k := by omega
          subst this
          simpa using hk
      · rw [if_neg hr] at h
        obtain ⟨⟨hb1, hb2⟩, hsl, hsu, hmid, hfail⟩ := ih (k + 1) (s + 1) su na ns h (by omega)
        refine ⟨⟨by omega, by omega⟩, by omega, hsu, ?_, ?_⟩
        · intro j hj1 hj2
          rcases Nat.eq_or_lt_of_le hj1 with hj | hj
          · subst hj; simpa using hk
          · exact hmid j hj hj2
        · intro hf
          obtain ⟨ha, hall⟩ := hfail hf
          refine ⟨by omega, ?_⟩
          intro j hj1 hj2
          rcases Nat.eq_or_lt_of_le hj1 with hj | hj
          · subst hj; simpa using hk
          · exact hall j hj (by omega)

/-- Characterization of the `remove_lease` retry loop: `try_to_remove` is
invoked between 1 and `1 + REMOVE_LEASE_RETRY_NUM` times, every attempt
before the last one failed, the loop sleeps exactly once between consecutive
attempts, a success is reported only when the last attempt succeeded, and
when every attempt fails the loop gives up after `1 + REMOVE_LEASE_RETRY_NUM`
attempts with a normal return. -/
theorem remove_lease_spec (att : Nat → Bool) (res : RetryResult)
    (h : remove_lease att = res) :
    (1 ≤ res.attempts ∧ res.attempts ≤ 1 + REMOVE_LEASE_RETRY_NUM) ∧
    res.sleeps = res.attempts - 1 ∧
    (res.succeeded = true → att (res.attempts - 1) = true) ∧
    (∀ j, j + 1 < res.attempts → att j = false) ∧
    (res.succeeded = false →
      res.attempts = 1 + REMOVE_LEASE_RETRY_NUM ∧
      ∀ j, j < 1 + REMOVE_LEASE_RETRY_NUM → att j = false) := by
  obtain ⟨⟨hb1, hb2⟩, hsl, hsu, hmid, hfail⟩ :=
    removeLeaseGo_spec att (1 + REMOVE_LEASE_RETRY_NUM) 0 0
      res.succeeded res.attempts res.sleeps h (by omega)
  refine ⟨⟨by omega, by omega⟩, by omega, hsu, ?_, ?_⟩
  · intro j hj; exact hmid j (by omega) hj
  · intro hf
    obtain ⟨ha, hall⟩ := hfail hf
    exact ⟨by omega, fun j hj => hall j (by omega) (by omega)⟩

/-! ## `reserve` (expeca.py lines 242-307)

The model starts after the reservation-payload dispatch and the
`lease_duration` call: it covers the inner closure `try_to_create_lease` and
the `while retries_left > 0` loop around it.
-/

/-- Abstract environment of one execution of `try_to_create_lease`: the
result of the `chi.blazar().lease.create(...)` call (`.error msg` when it
raises a `BlazarClientException`, `.ok id` when it returns a lease
dictionary whose `id` field is `id`), and the stream of statuses observed by
the `wait_until_lease_status(leaseid, leasename, "ACTIVE")` call that
follows a successful creation. -/
structure CreateAttempt where
  createResult : Except String String
  waitStatusAt : Nat → Option String

/-- Outcome of one execution of `try_to_create_lease`: `answer` is its
return value (the lease id standing for the returned lease dictionary, or
`none` for Python `None`), and `removed` is the lease id passed to
`remove_lease(leaseid, leasename, True)` inside the exception handler, if
that call happened. -/
structure TryCreateOutcome where
  answer : Option String
  removed : Option String
  deriving DecidableEq, Repr

/-- The closure `try_to_create_lease` of `reserve(item)`.  When the create
call raises, `leaseid` is still `None` and the handler performs no removal;
when the create call returns but `wait_until_lease_status` raises (either
its `"ERROR"` raise or its timeout raise, both `BlazarClientException`), the
handler reaches `if leaseid:` with `leaseid` bound, and calls
`remove_lease(leaseid, leasename, True)` when that string is truthy, i.e.
non-empty. -/
def try_to_create_lease (itemname : String) (a : CreateAttempt) : TryCreateOutcome :=
  match a.createResult with
  | .error _ => ⟨none, none⟩
  | .ok leaseid =>
    match (wait_until_lease_status leaseid (itemname ++ "-lease") (some "ACTIVE")
        false a.waitStatusAt).1 with
    | .success => ⟨some leaseid, none⟩
    | .errorRaised _ => ⟨none, if leaseid = "" then none else some leaseid⟩
    | .timeoutRaised _ => ⟨none, if leaseid = "" then none else some leaseid⟩

/-- Result of `reserve(item)`: the returned value (`none` for Python `None`),
the lease ids passed to `remove_lease(…, True)` during the call, the number
of `try_to_create_lease` executions and the number of retry sleeps. -/
structure ReserveResult where
  answer : Option String
  removals : List String
  attempts : Nat
  sleeps : Nat
  deriving DecidableEq, Repr

/-- The `while retries_left > 0` loop of `reserve`, in the same style as
`removeLeaseGo`; `rem` accumulates the lease ids removed with
`erroneouslease=True` so far. -/
def reserveGo (itemname : String) (env : Nat → CreateAttempt) :
    Nat → Nat → Nat → List String → ReserveResult
  | 0, k, s, rem => ⟨none, rem, k, s⟩
  | r + 1, k, s, rem =>
    match (try_to_create_lease itemname (env k)).answer with
    | some ans =>
      ⟨some ans, rem ++ (try_to_create_lease itemname (env k)).removed.toList, k + 1, s⟩
    | none =>
      if r = 0 then
        ⟨none, rem ++ (try_to_create_lease itemname (env k)).removed.toList, k + 1, s⟩
      else reserveGo itemname env r (k + 1) (s + 1)
        (rem ++ (try_to_create_lease itemname (env k)).removed.toList)

/-- Model of `reserve(item)` for an item that passed the payload dispatch: the retry
loop entered with `retries_left = 1 + CREATE_LEASE_RETRY_NUM`.  `itemname`
is `item["name"]` and `env` the abstract environments of the successive
`try_to_create_lease` executions.  When no attempt succeeds the Python
function falls off the end of the loop and returns `None`. -/
def reserve (itemname : String) (env : Nat → CreateAttempt) : ReserveResult :=
  reserveGo itemname env (1 + CREATE_LEASE_RETRY_NUM) 0 0 []

theorem reserveGo_spec (itemname : String) (env : Nat → CreateAttempt) :
    ∀ rl k s rem ans rems na ns,
      reserveGo itemname env rl k s rem = ⟨ans, rems, na, ns⟩ → 0 < rl →
      (k < na ∧ na ≤ k + rl) ∧
      ns = s + (na - k - 1) ∧
      (∀ j, k ≤ j → j + 1 < na →
        (try_to_create_lease itemname (env j)).answer = none) ∧
      (∀ a, ans = some a →
        (try_to_create_lease itemname (env (na - 1))).answer = some a) ∧
      (ans = none →
        na = k + rl ∧
        ∀ j, k ≤ j → j < k + rl → (try_to_create_lease itemname (env j)).answer = none) ∧
      (∀ j lid, k ≤ j → j < na →
        (try_to_create_lease itemname (env j)).removed = some lid → lid ∈ rems) ∧
      (∀ x, x ∈ rem → x ∈ rems) := by
  intro rl
  induction rl with
  | zero => intro k s rem ans rems na ns _ habs; exact absurd habs (by omega)
  | succ r ih =>
    intro k s rem ans rems na ns h _
    rw [reserveGo] at h
    rcases hk : (try_to_create_lease itemname (env k)).answer with _ | a
    · rw [hk] at h
      simp only at h
      by_cases hr : r = 0
      · rw [if_pos hr] at h
        injection h with h1 h2 h3 h4
        subst h1; subst h2; subst h3; subst h4
        subst hr
        refine ⟨⟨by omega, by omega⟩, by omega, ?_, ?_, ?_, ?_, ?_⟩
        · intro j hj1 hj2; exact absurd hj1 (by omega)
        · intro a habs; simp at habs
        · intro _
          refine ⟨by omega, ?_⟩
          intro j hj1 hj2
          have : j = k := by omega
          subst this
          exact hk
        · intro j lid hj1 hj2 hrm
          have : j = k := by omega
          subst this
          simp [hrm]
        · intro x hx; simp [hx]
      · rw [if_neg hr] at h
        obtain ⟨⟨hb1, hb2⟩, hsl, hmid, hans, hfail, hrem, hmono⟩ :=
          ih (k + 1) (s + 1) (rem ++ (try_to_create_lease itemname (env k)).removed.toList)
            ans rems na ns h (by omega)
        refine ⟨⟨by omega, by omega⟩, by omega, ?_, hans, ?_, ?_, ?_⟩
        · intro j hj1 hj2
          rcases Nat.eq_or_lt_of_le hj1 with hj | hj
          · subst hj; exact hk
          · exact hmid j hj hj2
        · intro hf
          obtain ⟨ha, hall⟩ := hfail hf
          refine ⟨by omega, ?_⟩
          intro j hj1 hj2
          rcases Nat.eq_or_lt_of_le hj1 with hj | hj
          · subst hj; exact hk
          · exact hall j hj (by omega)
        · intro j lid hj1 hj2 hrm
          rcases Nat.eq_or_lt_of_le hj1 with hj | hj
          · subst hj
            apply hmono
            simp [hrm]
          · exact hrem j lid hj hj2 hrm
        · intro x hx
          apply hmono
          simp [hx]
    · rw [hk] at h
      simp only at h
      injection h with h1 h2 h3 h4
      subst h1; subst h2; subst h3; subst h4
      refine ⟨⟨by omega, by omega⟩, by omega, ?_, ?_, ?_, ?_, ?_⟩
      · intro j hj1 hj2; exact absurd hj1 (by omega)
      · intro b hb
        injection hb with hb
        subst hb
        simpa using hk
      · intro habs; simp at habs
      · intro j lid hj1 hj2 hrm
        have : j = k := by omega
        subst this
        simp [hrm]
      · intro x hx; simp [hx]

/-- Characterization of the `reserve` retry loop: `try_to_create_lease` is
invoked between 1 and `1 + CREATE_LEASE_RETRY_NUM` times, every attempt
before the last one returned `None`, the loop sleeps exactly once between
consecutive attempts, a non-`None` answer is returned only when the last
attempt produced it, when every attempt fails `reserve` returns `None` after
`1 + CREATE_LEASE_RETRY_NUM` attempts, and every lease id handed to
`remove_lease(…, True)` by a performed attempt appears in the removal log. -/
theorem reserve_spec (itemname : String) (env : Nat → CreateAttempt)
    (res : ReserveResult) (h : reserve itemname env = res) :
    (1 ≤ res.attempts ∧ res.attempts ≤ 1 + CREATE_LEASE_RETRY_NUM) ∧
    res.sleeps = res.attempts - 1 ∧
    (∀ j, j + 1 < res.attempts → (try_to_create_lease itemname (env j)).answer = none) ∧
    (∀ a, res.answer = some a →
      (try_to_create_lease itemname (env (res.attempts - 1))).answer = some a) ∧
    (res.answer = none →
      res.attempts = 1 + CREATE_LEASE_RETRY_NUM ∧
      ∀ j, j < 1 + CREATE_LEASE_RETRY_NUM →
        (try_to_create_lease itemname (env j)).answer = none) ∧
    (∀ j lid, j < res.attempts →
      (try_to_create_lease itemname (env j)).removed = some lid →
      lid ∈ res.removals) := by
  obtain ⟨⟨hb1, hb2⟩, hsl, hmid, hans, hfail, hrem, hmono⟩ :=
    reserveGo_spec itemname env (1 + CREATE_LEASE_RETRY_NUM) 0 0 []
      res.answer res.removals res.attempts res.sleeps h (by omega)
  refine ⟨⟨by omega, by omega⟩, by omega, ?_, hans, ?_, ?_⟩
  · intro j hj; exact hmid j (by omega) hj
  · intro hf
    obtain ⟨ha, hall⟩ := hfail hf
    exact ⟨by omega, fun j hj => hall j (by omega) (by omega)⟩
  · intro j lid hj hrm; exact hrem j lid (by omega) hj hrm

/-! ## `get_container_status` (expeca.py lines 95-102) and
`get_lease_status` (expeca.py lines 123-129) -/

/-- Entry of `chi.blazar().lease.list()` as used by `get_lease_status`:
its `id` and `status` fields. -/
structure LeaseRec where
  id : String
  status : String
  deriving DecidableEq, Repr

/-- Entry of `chi.container.list_containers()` after `.to_dict()`, as used
by `get_container_status`: its `name` and `status` fields. -/
structure ContainerRec where
  name : String
  status : String
  deriving DecidableEq, Repr

/-- Model of `get_lease_status(leaseid)` over the current lease list: `status` starts
as `None` and is overwritten by every entry whose `id` matches, so the last
matching entry wins. -/
def get_lease_status (leaselist : List LeaseRec) (leaseid : String) : Option String :=
  leaselist.foldl (fun status l => if l.id = leaseid then some l.status else status) none

/-- Model of `get_container_status(containername)` over the current container list:
`status` starts as `None` and is overwritten by every entry whose `name`
matches, so the last matching entry wins. -/
def get_container_status (containerslist : List ContainerRec) (containername : String) :
    Option String :=
  containerslist.foldl
    (fun status c => if c.name = containername then some c.status else status) none

theorem get_lease_status_skip (leaseid : String) :
    ∀ (ll : List LeaseRec) (acc : Option String), (∀ e ∈ ll, e.id ≠ leaseid) →
      ll.foldl (fun status l => if l.id = leaseid then some l.status else status) acc = acc := by
  intro ll
  induction ll with
  | nil => intro acc _; rfl
  | cons a l ih =>
    intro acc hno
    rw [List.foldl_cons, if_neg (hno a (List.mem_cons_self a l))]
    exact ih acc (fun e he => hno e (List.mem_cons_of_mem a he))

theorem get_container_status_skip (containername : String) :
    ∀ (cl : List ContainerRec) (acc : Option String), (∀ e ∈ cl, e.name ≠ containername) →
      cl.foldl (fun status c => if c.name = containername then some c.status else status) acc
        = acc := by
  intro cl
  induction cl with
  | nil => intro acc _; rfl
  | cons a l ih =>
    intro acc hno
    rw [List.foldl_cons, if_neg (hno a (List.mem_cons_self a l))]
    exact ih acc (fun e he => hno e (List.mem_cons_of_mem a he))

/-! ## `get_available_publicips` (expeca.py lines 19-28) -/

/-- HTTP response of the public-IPs endpoint: its status code and JSON body.
The body is a JSON object modelled as an association list (a Python dict has
at most one entry per key, looked up by first match); only list-valued
entries matter to this endpoint. -/
structure IpResponse where
  status_code : Nat
  body : List (String × List String)

/-- Python `dict.get(k, dflt)`. -/
def pyDictGet {α : Type} (d : List (String × α)) (k : String) (dflt : α) : α :=
  match d.find? (fun p => p.1 = k) with
  | some p => p.2
  | none => dflt

/-- Model of `get_available_publicips()` applied to the HTTP response it receives:
on status 200 it returns `data.get('available_ips', [])`, otherwise it logs
an error and returns `[]`. -/
def get_available_publicips (response : IpResponse) : List String :=
  if response.status_code = 200 then pyDictGet response.body "available_ips" []
  else []

/-! ## `get_segment_ids` and `get_radio_interfaces` (expeca.py lines 31-78) -/

/-- The anchored regex `^sdr-\d{2}$` (with `\d` modelled as an ASCII digit). -/
def pattern_sdr (s : String) : Bool :=
  match s.data with
  | ['s', 'd', 'r', '-', d1, d2] => d1.isDigit && d2.isDigit
  | _ => false

/-- The anchored regex `^adv-\d{2}$` (with `\d` modelled as an ASCII digit). -/
def pattern_adv (s : String) : Bool :=
  match s.data with
  | ['a', 'd', 'v', '-', d1, d2] => d1.isDigit && d2.isDigit
  | _ => false

/-- The anchored regex `^ep5g$`. -/
def pattern_ep5g (s : String) : Bool :=
  s == "ep5g"

/-- Whether the character list starts with the given pattern. -/
def listStartsWith : List Char → List Char → Bool
  | _, [] => true
  | [], _ :: _ => false
  | a :: as, b :: bs => a == b && listStartsWith as bs

/-- Whether the character list contains the pattern as a contiguous run. -/
def listHasSub (sub : List Char) : List Char → Bool
  | [] => listStartsWith [] sub
  | a :: as => listStartsWith (a :: as) sub || listHasSub sub as

/-- Python `sub in s` on strings: contiguous substring containment. -/
def strHasSub (s sub : String) : Bool :=
  listHasSub sub.data s.data

/-- Python dict assignment `d[k] = v`: overwrites the value of an existing
key in place, otherwise appends the new key at the end (dicts preserve
insertion order). -/
def dictAssign {α : Type} (d : List (String × α)) (k : String) (v : α) :
    List (String × α) :=
  if d.any (fun p => p.1 = k) then d.map (fun p => if p.1 = k then (k, v) else p)
  else d ++ [(k, v)]

/-- HTTP response of the radio-information endpoint: its status code and
JSON body.  The body maps each key to an object whose only field used by
this code is `segment_id`, so the objects are abstracted to that field. -/
structure RadioResponse where
  status_code : Nat
  json : List (String × Nat)

/-- Model of `get_segment_ids(radio_name)` applied to the HTTP response the inner
`requests.get` would receive.  The first component records whether the HTTP
request was performed at all: a `radio_name` matching none of the three
anchored patterns is rejected before any request.  On a 200 response the
result dict is built from the keys of the answer: for `sdr-xx` names keys
containing `'mango'` set `result['rj45']` and keys containing `'ni'` set
`result['sfp']`; for `adv-xx` (resp. `ep5g`) names keys containing `'adv'`
(resp. `'ep5g'`) set `result['rj45']`. -/
def get_segment_ids (radio_name : String) (response : RadioResponse) :
    Bool × List (String × Nat) :=
  if ¬(pattern_sdr radio_name || pattern_adv radio_name || pattern_ep5g radio_name) then
    (false, [])
  else if response.status_code = 200 then
    if pattern_sdr radio_name then
      (true, response.json.foldl (fun result kv =>
        let r1 := if strHasSub kv.1 "mango" then dictAssign result "rj45" kv.2 else result
        if strHasSub kv.1 "ni" then dictAssign r1 "sfp" kv.2 else r1) [])
    else if pattern_adv radio_name then
      (true, response.json.foldl (fun result kv =>
        if strHasSub kv.1 "adv" then dictAssign result "rj45" kv.2 else result) [])
    else if pattern_ep5g radio_name then
      (true, response.json.foldl (fun result kv =>
        if strHasSub kv.1 "ep5g" then dictAssign result "rj45" kv.2 else result) [])
    else (true, [])
  else (true, [])

/-- Model of `get_radio_interfaces(radio_name)` applied to the HTTP response the
inner `requests.get` would receive; same request-performed flag as
`get_segment_ids`.  On a 200 response the whole JSON body is returned. -/
def get_radio_interfaces (radio_name : String) (response : RadioResponse) :
    Bool × List (String × Nat) :=
  if ¬(pattern_sdr radio_name || pattern_adv radio_name || pattern_ep5g radio_name) then
    (false, [])
  else if response.status_code = 200 then (true, response.json)
  else (true, [])

theorem dictAssign_keys {α : Type} (d : List (String × α)) (k : String) (v : α) :
    ∀ p ∈ dictAssign d k v, p.1 = k ∨ p ∈ d := by
  intro p hp
  rw [dictAssign] at hp
  by_cases hany : d.any (fun p => p.1 = k)
  · rw [if_pos hany] at hp
    obtain ⟨q, hq, hpq⟩ := List.mem_map.mp hp
    by_cases hqk : q.1 = k
    · rw [if_pos hqk] at hpq
      left; rw [← hpq]
    · rw [if_neg hqk] at hpq
      right; rw [← hpq]; exact hq
  · rw [if_neg hany] at hp
    rcases List.mem_append.mp hp with h | h
    · right; exact h
    · left
      have : p = (k, v) := by simpa using h
      rw [this]

theorem foldl_keys_invariant {α : Type} (P : String → Prop)
    (f : List (String × α) → (String × α) → List (String × α))
    (hf : ∀ acc kv p, (∀ q ∈ acc, P q.1) → p ∈ f acc kv → P p.1) :
    ∀ (l : List (String × α)) (acc : List (String × α)),
      (∀ q ∈ acc, P q.1) → ∀ p ∈ l.foldl f acc, P p.1 := by
  intro l
  induction l with
  | nil => intro acc hacc p hp; exact hacc p hp
  | cons a l ih =>
    intro acc hacc p hp
    rw [List.foldl_cons] at hp
    exact ih (f acc a) (fun q hq => hf acc a q hacc hq) p hp

/-! ## `lease_duration` and its callers (lease.py lines 414-527) -/

/-- Exceptions raised by the embedded fragments of `lease.py`. -/
inductive PyError
  | typeError
  | valueError
  | nameError
  deriving DecidableEq, Repr

/-- Model of `lease_duration(days=1, hours=None)` (lease.py lines 414-433).  Time is
modelled in seconds, with `now` the value of `datetime.now(tz=tz.tzutc())`;
the `strftime(BLAZAR_TIME_FORMAT)` formatting of the two returned dates is
abstracted away and the dates themselves are returned.
`timedelta(days=days, hours=hours)` raises `TypeError` when `hours` is
`None` (its default), because `timedelta` rejects a `None` component; when
`hours` is a number the function returns the pair
`(start_date, end_date) = (now + 1 minute, now + days days + hours hours)`. -/
def lease_duration (now : Int) (days : Int) (hours : Option Int) :
    Except PyError (Int × Int) :=
  match hours with
  | none => .error .typeError
  | some h => .ok (now + 60, now + days * 86400 + h * 3600)

/-- Model of `reserve_node(lease_name, node_type, count)` (lease.py lines 436-459).
Its first statement is `start_date, end_date = lease_duration(days=1)`,
leaving `hours` at its default `None`; whatever exception `lease_duration`
raises propagates out.  The final `blazar().lease.create(...)` call is
abstracted to returning the name and dates it would be given. -/
def reserve_node (now : Int) (lease_name : String) :
    Except PyError (String × Int × Int) :=
  match lease_duration now 1 none with
  | .error e => .error e
  | .ok (s, e) => .ok (lease_name, s, e)

/-- Model of `reserve_network(lease_name, ...)` (lease.py lines 462-502), modelled
exactly like `reserve_node`: it also starts with
`start_date, end_date = lease_duration(days=1)`. -/
def reserve_network (now : Int) (lease_name : String) :
    Except PyError (String × Int × Int) :=
  match lease_duration now 1 none with
  | .error e => .error e
  | .ok (s, e) => .ok (lease_name, s, e)

/-- Model of `reserve_floating_ip(lease_name, count)` (lease.py lines 505-526),
modelled exactly like `reserve_node`: it also starts with
`start_date, end_date = lease_duration(days=1)`. -/
def reserve_floating_ip (now : Int) (lease_name : String) :
    Except PyError (String × Int × Int) :=
  match lease_duration now 1 none with
  | .error e => .error e
  | .ok (s, e) => .ok (lease_name, s, e)

/-! ## `lease_create_args` (lease.py lines 44-130) -/

/-- The `start` argument of `lease_create_args`: the string `"now"` or a
datetime (in seconds). -/
inductive StartArg
  | now
  | given (t : Int)
  deriving DecidableEq, Repr

/-- A reservation entry built by `lease_create_args`; resource-property
objects are modelled by their JSON serialization. -/
inductive BlazarReservation
  | host (resource_properties : String) (minCount maxCount : String)
  | floatingip (network_id : String) (amount : Nat)
  deriving DecidableEq, Repr

/-- The value returned by `lease_create_args` on success: the `name`,
`start`, `end` and `reservations` entries of the payload (the `events`
entry is the constant `[]`).  Dates are in seconds, their `strftime`
formatting abstracted away. -/
structure LeaseCreateArgs where
  name : Option String
  start : Int
  end_ : Int
  reservations : List BlazarReservation
  deriving DecidableEq, Repr

/-- Constant `DEFAULT_LEASE_LENGTH = timedelta(days=1)` in seconds. -/
def DEFAULT_LEASE_LENGTH : Int := 86400

/-- Model of `lease_create_args(...)` (lease.py lines 44-130).  `public_network_id`
stands for `get_network_id(PUBLIC_NETWORK)`; `length` in seconds (a
`timedelta` and a number of seconds behave alike here);
`node_resource_properties` and `network_resource_properties` are modelled by
their JSON serialization, with `None` as `Option.none`, so
`node_resource_properties or ""` is `getD ""`.  Control flow follows the
source: giving both `length` and `end` raises `ValueError` first; then, with
`networks > 0`, evaluating the network-reservation list comprehension
evaluates its body (the f-string referencing the undefined variable
`prefix`) at `idx = 0` and raises `NameError`, so no network entry is ever
produced; with `networks == 0` the comprehension is empty and nothing in it
is evaluated. -/
def lease_create_args (now : Int) (public_network_id : String) (name : Option String)
    (start : StartArg) (end_ : Option Int) (length : Option Int) (nodes : Nat)
    (node_resource_properties : Option String) (fips : Nat) (networks : Nat) :
    Except PyError LeaseCreateArgs :=
  let startv : Int :=
    match start with
    | .now => now + 70
    | .given t => t
  match length, end_ with
  | some _, some _ => .error .valueError
  | _, _ =>
    let lengthv : Int :=
      match length with
      | some l => l
      | none => DEFAULT_LEASE_LENGTH
    let endv : Int :=
      match end_ with
      | some e => e
      | none => startv + lengthv
    let reservations : List BlazarReservation :=
      (if nodes > 0 then
        [.host (node_resource_properties.getD "") (toString nodes) (toString nodes)]
      else []) ++
      (if fips > 0 then [.floatingip public_network_id fips] else [])
    if networks > 0 then .error .nameError
    else .ok ⟨name, startv, endv, reservations⟩

/-! ## Claims -/

/-- A status stream observing `"ERROR"` at the first query and `"ACTIVE"`
afterwards. -/
def c1Statuses : Nat → Option String := fun i => if i = 0 then some "ERROR" else some "ACTIVE"

/-- Claim C1, counterexample: with `erroneouslease = True`, a call to
`wait_until_lease_status` that observes status `"ERROR"` at its first query
returns normally after its second query — no exception is raised — contrary
to the claim that an exception is raised whenever the observed status is
`"ERROR"`. -/
theorem C1_counterexample :
    c1Statuses 0 = some "ERROR" ∧
    wait_until_lease_status "lid0" "lease0" (some "ACTIVE") true c1Statuses
      = (LeaseWaitResult.success, 2) := by
  refine ⟨rfl, ?_⟩
  simp [wait_until_lease_status, waitLeaseGo, c1Statuses,
    LEASE_STATUS_CHECK_TIMEOUT_SEC, LEASE_STATUS_CHECK_PERIOD_SEC]

/-- Claim C1 (amended): for every call to
`wait_until_lease_status(leaseid, leasename, desiredstatus, erroneouslease)`,
the loop queries the lease status at the fixed period up to the fixed
timeout, hence at most
`LEASE_STATUS_CHECK_TIMEOUT_SEC / LEASE_STATUS_CHECK_PERIOD_SEC` times; it
returns as soon as the observed status equals `desiredstatus`; it raises an
exception whenever the observed status is `"ERROR"` *and `erroneouslease` is
false*, or the timeout is reached with every query having triggered neither
the return nor the error raise. -/
theorem C1_wait_until_lease_status (leaseid leasename : String) (desired : Option String)
    (err : Bool) (statusAt : Nat → Option String) (r : LeaseWaitResult) (n : Nat)
    (h : wait_until_lease_status leaseid leasename desired err statusAt = (r, n)) :
    (1 ≤ n ∧ n ≤ LEASE_STATUS_CHECK_TIMEOUT_SEC / LEASE_STATUS_CHECK_PERIOD_SEC) ∧
    (∀ j, j + 1 < n → statusAt j ≠ desired ∧ ¬(statusAt j = some "ERROR" ∧ err = false)) ∧
    (statusAt (n - 1) = desired → r = .success) ∧
    (r = .success → statusAt (n - 1) = desired) ∧
    (statusAt (n - 1) ≠ desired → statusAt (n - 1) = some "ERROR" → err = false →
      r = .errorRaised "unknown") ∧
    (∀ msg, r = .errorRaised msg → statusAt (n - 1) = some "ERROR" ∧ err = false) ∧
    (∀ msg, r = .timeoutRaised msg →
      n = LEASE_STATUS_CHECK_TIMEOUT_SEC / LEASE_STATUS_CHECK_PERIOD_SEC ∧
      ∀ j, j < n → statusAt j ≠ desired ∧ ¬(statusAt j = some "ERROR" ∧ err = false)) := by
  have hdiv : LEASE_STATUS_CHECK_TIMEOUT_SEC / LEASE_STATUS_CHECK_PERIOD_SEC = 24 := rfl
  obtain ⟨⟨hb1, hb2⟩, hmid, hiff, herrr, hcomp, htime⟩ :=
    wait_until_lease_status_spec leaseid leasename desired err statusAt r n h
  rw [hdiv]
  refine ⟨⟨hb1, hb2⟩, hmid, hiff.mpr, hiff.mp, hcomp, ?_, ?_⟩
  · intro msg hmsg
    obtain ⟨h1, h2, h3, h4⟩ := herrr msg hmsg
    exact ⟨h3, h4⟩
  · intro msg hmsg
    obtain ⟨h1, h2, h3⟩ := htime msg hmsg
    exact ⟨h1, h2⟩

/-- Witness for C1: a concrete run that immediately observes the desired
status returns normally after exactly one query. -/
theorem C1_witness :
    wait_until_lease_status "w" "wl" (some "ACTIVE") false (fun _ => some "ACTIVE")
      = (LeaseWaitResult.success, 1) ∧
    (1 ≤ 1 ∧ 1 ≤ LEASE_STATUS_CHECK_TIMEOUT_SEC / LEASE_STATUS_CHECK_PERIOD_SEC) := by
  have h : wait_until_lease_status "w" "wl" (some "ACTIVE") false (fun _ => some "ACTIVE")
      = (LeaseWaitResult.success, 1) := by
    simp [wait_until_lease_status, waitLeaseGo, LEASE_STATUS_CHECK_TIMEOUT_SEC]
  exact ⟨h, (C1_wait_until_lease_status "w" "wl" (some "ACTIVE") false
    (fun _ => some "ACTIVE") _ _ h).1⟩

/-- Claim C4: each polling loop performs at most timeout/period status
queries before terminating — 24 for the lease loop
(`LEASE_STATUS_CHECK_TIMEOUT_SEC = 120`, `LEASE_STATUS_CHECK_PERIOD_SEC = 5`)
and 6 for the container loop (`CONTAINER_STATUS_CHECK_TIMEOUT_SEC = 30`,
`CONTAINER_STATUS_CHECK_PERIOD_SEC = 5`) — and whether it returns normally
or raises is determined by the last status observed: the lease loop returns
normally iff the last observed status equals the desired one, the container
loop iff the last observed status is `None`. -/
theorem C4_poll_bounds :
    (∀ leaseid leasename desired err statusAt r n,
      wait_until_lease_status leaseid leasename desired err statusAt = (r, n) →
      n ≤ LEASE_STATUS_CHECK_TIMEOUT_SEC / LEASE_STATUS_CHECK_PERIOD_SEC ∧
      LEASE_STATUS_CHECK_TIMEOUT_SEC / LEASE_STATUS_CHECK_PERIOD_SEC = 24 ∧
      1 ≤ n ∧ (r = .success ↔ statusAt (n - 1) = desired)) ∧
    (∀ containername statusAt r n,
      wait_until_container_removed containername statusAt = (r, n) →
      n ≤ CONTAINER_STATUS_CHECK_TIMEOUT_SEC / CONTAINER_STATUS_CHECK_PERIOD_SEC ∧
      CONTAINER_STATUS_CHECK_TIMEOUT_SEC / CONTAINER_STATUS_CHECK_PERIOD_SEC = 6 ∧
      1 ≤ n ∧ (r = .removed ↔ statusAt (n - 1) = none)) := by
  constructor
  · intro leaseid leasename desired err statusAt r n h
    obtain ⟨⟨hb1, hb2⟩, hmid, hiff, _⟩ :=
      wait_until_lease_status_spec leaseid leasename desired err statusAt r n h
    refine ⟨?_, rfl, hb1, hiff⟩
    rw [(rfl : LEASE_STATUS_CHECK_TIMEOUT_SEC / LEASE_STATUS_CHECK_PERIOD_SEC = 24)]
    exact hb2
  · intro containername statusAt r n h
    obtain ⟨⟨hb1, hb2⟩, hmid, hiff, _⟩ :=
      wait_until_container_removed_spec containername statusAt r n h
    refine ⟨?_, rfl, hb1, hiff⟩
    rw [(rfl : CONTAINER_STATUS_CHECK_TIMEOUT_SEC / CONTAINER_STATUS_CHECK_PERIOD_SEC = 6)]
    exact hb2

/-- Witness for C4: a concrete container-loop run that observes `None` at
once performs exactly one query, within the bound. -/
theorem C4_witness :
    wait_until_container_removed "c0" (fun _ => none) = (ContainerWaitResult.removed, 1) ∧
    (1 : Nat) ≤ CONTAINER_STATUS_CHECK_TIMEOUT_SEC / CONTAINER_STATUS_CHECK_PERIOD_SEC := by
  have h : wait_until_container_removed "c0" (fun _ => none)
      = (ContainerWaitResult.removed, 1) := by
    simp [wait_until_container_removed, waitContainerGo, CONTAINER_STATUS_CHECK_TIMEOUT_SEC]
  refine ⟨h, ?_⟩
  exact (C4_poll_bounds.2 "c0" (fun _ => none) _ _ h).1

/-- Claim C5: `wait_until_container_removed(containername)` returns as soon
as a query observes `None` (the container no longer appears in the container
list); earlier queries all observed a non-`None` status; when the timeout
elapses with the status still not `None`, it raises a generic exception
whose message names the container and the last observed status; likewise a
timeout in `wait_until_lease_status` raises an exception whose message names
the lease (name and id) and the last observed status. -/
theorem C5_timeout_messages :
    (∀ containername statusAt r n,
      wait_until_container_removed containername statusAt = (r, n) →
      (statusAt (n - 1) = none → r = .removed) ∧
      (∀ j, j + 1 < n → statusAt j ≠ none) ∧
      (∀ msg, r = .timeoutRaised msg →
        statusAt (n - 1) ≠ none ∧
        msg = "timeout reached, container " ++ containername ++
          " is stuck in " ++ pyStr (statusAt (n - 1)) ++ ".")) ∧
    (∀ leaseid leasename desired err statusAt r n,
      wait_until_lease_status leaseid leasename desired err statusAt = (r, n) →
      ∀ msg, r = .timeoutRaised msg →
        msg = "timeout reached, lease " ++ leasename ++ " with id " ++ leaseid ++
          " is stuck in " ++ pyStr (statusAt (n - 1)) ++ ".") := by
  constructor
  · intro containername statusAt r n h
    obtain ⟨⟨hb1, hb2⟩, hmid, hiff, htime⟩ :=
      wait_until_container_removed_spec containername statusAt r n h
    refine ⟨hiff.mpr, hmid, ?_⟩
    intro msg hmsg
    obtain ⟨h1, h2, h3⟩ := htime msg hmsg
    exact ⟨h2 (n - 1) (by omega), h3⟩
  · intro leaseid leasename desired err statusAt r n h
    obtain ⟨_, _, _, _, _, htime⟩ :=
      wait_until_lease_status_spec leaseid leasename desired err statusAt r n h
    intro msg hmsg
    exact (htime msg hmsg).2.2

/-- Witness for C5: a concrete container-loop run that always observes
status `"Running"` times out after 6 queries with the formatted message. -/
theorem C5_witness :
    wait_until_container_removed "cbox" (fun _ => some "Running")
      = (ContainerWaitResult.timeoutRaised
          "timeout reached, container cbox is stuck in Running.", 6) ∧
    (fun _ => some "Running" : Nat → Option String) (6 - 1) ≠ none := by
  have h : wait_until_container_removed "cbox" (fun _ => some "Running")
      = (ContainerWaitResult.timeoutRaised
          "timeout reached, container cbox is stuck in Running.", 6) := by
    simp [wait_until_container_removed, waitContainerGo, pyStr,
      CONTAINER_STATUS_CHECK_TIMEOUT_SEC, CONTAINER_STATUS_CHECK_PERIOD_SEC]
  refine ⟨h, ?_⟩
  exact ((C5_timeout_messages.1 "cbox" (fun _ => some "Running") _ _ h).2.2 _ rfl).1

/-- Claim C2: in `remove_lease` (resp. `reserve`) the inner fallible
operation `try_to_remove` (resp. `try_to_create_lease`) is invoked at most
`1 + REMOVE_LEASE_RETRY_NUM` (resp. `1 + CREATE_LEASE_RETRY_NUM`) times; the
loop stops at the first successful attempt (every attempt before the last
one failed, and a reported success comes from the last attempt); it sleeps
the fixed retry period exactly once between consecutive attempts (so
`attempts - 1` times in total); and when every attempt fails it gives up
with a normal (logging) return after exactly `1 + N` attempts instead of
raising. -/
theorem C2_retry_bounds :
    (∀ att res, remove_lease att = res →
      (1 ≤ res.attempts ∧ res.attempts ≤ 1 + REMOVE_LEASE_RETRY_NUM) ∧
      res.sleeps = res.attempts - 1 ∧
      (res.succeeded = true → att (res.attempts - 1) = true) ∧
      (∀ j, j + 1 < res.attempts → att j = false) ∧
      (res.succeeded = false → res.attempts = 1 + REMOVE_LEASE_RETRY_NUM ∧
        ∀ j, j < 1 + REMOVE_LEASE_RETRY_NUM → att j = false)) ∧
    (∀ itemname env res, reserve itemname env = res →
      (1 ≤ res.attempts ∧ res.attempts ≤ 1 + CREATE_LEASE_RETRY_NUM) ∧
      res.sleeps = res.attempts - 1 ∧
      (∀ j, j + 1 < res.attempts → (try_to_create_lease itemname (env j)).answer = none) ∧
      (∀ a, res.answer = some a →
        (try_to_create_lease itemname (env (res.attempts - 1))).answer = some a) ∧
      (res.answer = none → res.attempts = 1 + CREATE_LEASE_RETRY_NUM ∧
        ∀ j, j < 1 + CREATE_LEASE_RETRY_NUM →
          (try_to_create_lease itemname (env j)).answer = none)) := by
  constructor
  · intro att res h
    exact remove_lease_spec att res h
  · intro itemname env res h
    obtain ⟨hb, hsl, hmid, hans, hfail, _⟩ := reserve_spec itemname env res h
    exact ⟨hb, hsl, hmid, hans, hfail⟩

/-- Witness for C2: an always-succeeding removal makes exactly one attempt
with no sleep, and a reservation whose create call always raises gives up
after exactly `1 + CREATE_LEASE_RETRY_NUM = 3` attempts, returning `None`. -/
theorem C2_witness :
    remove_lease (fun _ => true) = ⟨true, 1, 0⟩ ∧
    reserve "it" (fun _ => ⟨Except.error "boom", fun _ => none⟩) = ⟨none, [], 3, 2⟩ ∧
    (3 : Nat) = 1 + CREATE_LEASE_RETRY_NUM := by
  have h1 : remove_lease (fun _ => true) = ⟨true, 1, 0⟩ := by
    simp [remove_lease, removeLeaseGo, REMOVE_LEASE_RETRY_NUM]
  have h2 : reserve "it" (fun _ => ⟨Except.error "boom", fun _ => none⟩)
      = ⟨none, [], 3, 2⟩ := by
    simp [reserve, reserveGo, try_to_create_lease, CREATE_LEASE_RETRY_NUM]
  refine ⟨h1, h2, ?_⟩
  have hs := (C2_retry_bounds.2 "it" (fun _ => ⟨Except.error "boom", fun _ => none⟩) _ h2).2.2.2.2
  exact ((hs rfl).1).symm

theorem try_to_create_lease_removed (itemname : String) (a : CreateAttempt) (lid : String)
    (hc : a.createResult = Except.ok lid) (hne : lid ≠ "")
    (hans : (try_to_create_lease itemname a).answer = none) :
    (try_to_create_lease itemname a).removed = some lid := by
  have hgoal : try_to_create_lease itemname a =
      match (wait_until_lease_status lid (itemname ++ "-lease") (some "ACTIVE")
          false a.waitStatusAt).1 with
      | .success => ⟨some lid, none⟩
      | .errorRaised _ => ⟨none, if lid = "" then none else some lid⟩
      | .timeoutRaised _ => ⟨none, if lid = "" then none else some lid⟩ := by
    rw [try_to_create_lease, hc]
  rcases hw : (wait_until_lease_status lid (itemname ++ "-lease") (some "ACTIVE")
      false a.waitStatusAt).1 with _ | msg | msg
  · rw [hgoal, hw] at hans
    simp at hans
  · rw [hgoal, hw]
    simp [hne]
  · rw [hgoal, hw]
    simp [hne]

/-- An environment whose create call returns a lease dictionary with the
empty string as its `id`, after which the wait observes `"ERROR"` at once
and raises. -/
def c3Env : Nat → CreateAttempt := fun _ => ⟨Except.ok "", fun _ => some "ERROR"⟩

/-- Claim C3, counterexample: a lease id (the empty string) is obtained
before the wait failure, yet `remove_lease` is never invoked on it: the
handler guard `if leaseid:` is false for the falsy empty string, so the
removal log stays empty while all three attempts fail and `reserve` returns
`None`. -/
theorem C3_counterexample :
    (c3Env 0).createResult = Except.ok "" ∧
    (try_to_create_lease "dev" (c3Env 0)).answer = none ∧
    reserve "dev" c3Env = ⟨none, [], 3, 2⟩ := by
  have ht : try_to_create_lease "dev" (c3Env 0) = ⟨none, none⟩ := by
    simp [try_to_create_lease, c3Env, wait_until_lease_status, waitLeaseGo,
      LEASE_STATUS_CHECK_TIMEOUT_SEC, LEASE_STATUS_CHECK_PERIOD_SEC]
  refine ⟨rfl, by rw [ht], ?_⟩
  have ht' : ∀ k, try_to_create_lease "dev" (c3Env k) = ⟨none, none⟩ := fun _ => ht
  simp [reserve, reserveGo, CREATE_LEASE_RETRY_NUM, ht']

/-- Claim C3 (amended): for every call to `reserve(item)`, any
`BlazarClientException` raised by the remote client during lease creation or
while waiting for the lease to become `"ACTIVE"` is caught rather than
propagated; if a *non-empty* (truthy) lease id was obtained before the
failure, `remove_lease` is invoked on it with `erroneouslease=True` and it
appears in the removal log; when every one of the `1 + CREATE_LEASE_RETRY_NUM`
attempts fails, `reserve` gives up, logs, and returns `None` instead of
raising — and a `None` return implies all `1 + CREATE_LEASE_RETRY_NUM`
attempts were made. -/
theorem C3_reserve (itemname : String) (env : Nat → CreateAttempt)
    (res : ReserveResult) (h : reserve itemname env = res) :
    (∀ k lid, k < res.attempts → (env k).createResult = Except.ok lid → lid ≠ "" →
      (try_to_create_lease itemname (env k)).answer = none → lid ∈ res.removals) ∧
    ((∀ k, k < 1 + CREATE_LEASE_RETRY_NUM →
        (try_to_create_lease itemname (env k)).answer = none) →
      res.answer = none) ∧
    (res.answer = none → res.attempts = 1 + CREATE_LEASE_RETRY_NUM) := by
  obtain ⟨⟨hb1, hb2⟩, hsl, hmid, hans, hfail, hrem⟩ := reserve_spec itemname env res h
  refine ⟨?_, ?_, fun hf => (hfail hf).1⟩
  · intro k lid hk hc hne ha
    exact hrem k lid hk (try_to_create_lease_removed itemname (env k) lid hc hne ha)
  · intro hall
    rcases hres : res.answer with _ | a
    · rfl
    · exfalso
      have h1 := hans a hres
      have h2 := hall (res.attempts - 1) (by omega)
      rw [h2] at h1
      exact Option.noConfusion h1

/-- Witness for C3: with a non-empty lease id `"id1"` obtained at every
attempt and every wait failing, the id is removed with
`erroneouslease=True`, appearing in the removal log of the `None`-returning
call. -/
theorem C3_witness :
    reserve "dev2" (fun _ => ⟨Except.ok "id1", fun _ => some "ERROR"⟩)
      = ⟨none, ["id1", "id1", "id1"], 3, 2⟩ ∧
    "id1" ∈ (["id1", "id1", "id1"] : List String) := by
  have ht : try_to_create_lease "dev2" ⟨Except.ok "id1", fun _ => some "ERROR"⟩
      = ⟨none, some "id1"⟩ := by
    simp [try_to_create_lease, wait_until_lease_status, waitLeaseGo,
      LEASE_STATUS_CHECK_TIMEOUT_SEC, LEASE_STATUS_CHECK_PERIOD_SEC]
  have h : reserve "dev2" (fun _ => ⟨Except.ok "id1", fun _ => some "ERROR"⟩)
      = ⟨none, ["id1", "id1", "id1"], 3, 2⟩ := by
    simp [reserve, reserveGo, ht, CREATE_LEASE_RETRY_NUM]
  refine ⟨h, ?_⟩
  have := (C3_reserve "dev2" (fun _ => ⟨Except.ok "id1", fun _ => some "ERROR"⟩) _ h).1
    0 "id1" (by simp) rfl (by simp) (by rw [ht])
  simp at this
  simp [this]

/-- Claim C6: for every HTTP response, `get_available_publicips` returns the
list stored under the `'available_ips'` key of the JSON body when the status
code is 200 (and the empty list if that key is absent), and returns the
empty list — after logging an error — for every response whose status code
is not 200. -/
theorem C6_get_available_publicips (resp : IpResponse) :
    (resp.status_code = 200 →
      ∀ p, resp.body.find? (fun q => q.1 = "available_ips") = some p →
        get_available_publicips resp = p.2) ∧
    (resp.status_code = 200 →
      resp.body.find? (fun q => q.1 = "available_ips") = none →
      get_available_publicips resp = []) ∧
    (resp.status_code ≠ 200 → get_available_publicips resp = []) := by
  refine ⟨?_, ?_, ?_⟩
  · intro h200 p hp
    rw [get_available_publicips, if_pos h200, pyDictGet, hp]
  · intro h200 hp
    rw [get_available_publicips, if_pos h200, pyDictGet, hp]
  · intro h200
    rw [get_available_publicips, if_neg h200]

/-- Witness for C6: a concrete 200 response with a singleton IP list, and a
concrete 500 response. -/
theorem C6_witness :
    get_available_publicips ⟨200, [("available_ips", ["10.0.0.1"])]⟩ = ["10.0.0.1"] ∧
    get_available_publicips ⟨500, [("available_ips", ["10.0.0.1"])]⟩ = [] := by
  constructor
  · exact (C6_get_available_publicips ⟨200, [("available_ips", ["10.0.0.1"])]⟩).1 rfl
      ("available_ips", ["10.0.0.1"]) (by simp)
  · exact (C6_get_available_publicips ⟨500, [("available_ips", ["10.0.0.1"])]⟩).2.2 (by simp)

/-- Claim C7: the status lookup functions do not verify name/id uniqueness:
for every lease list and container list, `get_lease_status(leaseid)` and
`get_container_status(containername)` return `None` when no entry matches,
and when one or more entries match they return the status of the last
matching entry in list order, without raising an error on duplicates. -/
theorem C7_status_lookups :
    (∀ (ll : List LeaseRec) (leaseid : String),
      ((∀ e ∈ ll, e.id ≠ leaseid) → get_lease_status ll leaseid = none) ∧
      (∀ l1 (e : LeaseRec) l2, ll = l1 ++ e :: l2 → e.id = leaseid →
        (∀ x ∈ l2, x.id ≠ leaseid) → get_lease_status ll leaseid = some e.status)) ∧
    (∀ (cl : List ContainerRec) (containername : String),
      ((∀ e ∈ cl, e.name ≠ containername) → get_container_status cl containername = none) ∧
      (∀ l1 (e : ContainerRec) l2, cl = l1 ++ e :: l2 → e.name = containername →
        (∀ x ∈ l2, x.name ≠ containername) →
        get_container_status cl containername = some e.status)) := by
  constructor
  · intro ll leaseid
    constructor
    · intro hno
      exact get_lease_status_skip leaseid ll none hno
    · intro l1 e l2 hsplit he hno
      subst hsplit
      rw [get_lease_status, List.foldl_append, List.foldl_cons, if_pos he]
      exact get_lease_status_skip leaseid l2 (some e.status) hno
  · intro cl containername
    constructor
    · intro hno
      exact get_container_status_skip containername cl none hno
    · intro l1 e l2 hsplit he hno
      subst hsplit
      rw [get_container_status, List.foldl_append, List.foldl_cons, if_pos he]
      exact get_container_status_skip containername l2 (some e.status) hno

/-- Witness for C7: a list with two entries sharing the id `"a"` yields the
status of the second (last) one, without any error. -/
theorem C7_witness :
    get_lease_status [⟨"a", "PENDING"⟩, ⟨"a", "ACTIVE"⟩] "a" = some "ACTIVE" ∧
    get_container_status [⟨"c", "Running"⟩] "x" = none := by
  constructor
  · exact ((C7_status_lookups.1 [⟨"a", "PENDING"⟩, ⟨"a", "ACTIVE"⟩] "a").2
      [⟨"a", "PENDING"⟩] ⟨"a", "ACTIVE"⟩ [] rfl rfl (by simp))
  · exact ((C7_status_lookups.2 [⟨"c", "Running"⟩] "x").1 (by simp))

/-- Claim C8: for every call to `lease_duration` in which the `hours`
argument is left at its default `None` — for example every call made by
`reserve_node`, `reserve_network` and `reserve_floating_ip`, which all call
`lease_duration(days=1)` — the function raises a `TypeError`, because
`timedelta(days=days, hours=None)` rejects `None`; `lease_duration` returns
a `(start_date, end_date)` pair only when `hours` is a number. -/
theorem C8_lease_duration :
    (∀ now days, lease_duration now days none = .error .typeError) ∧
    (∀ now days h, lease_duration now days (some h)
        = .ok (now + 60, now + days * 86400 + h * 3600)) ∧
    (∀ now n, reserve_node now n = .error .typeError) ∧
    (∀ now n, reserve_network now n = .error .typeError) ∧
    (∀ now n, reserve_floating_ip now n = .error .typeError) :=
  ⟨fun _ _ => rfl, fun _ _ _ => rfl, fun _ _ => rfl, fun _ _ => rfl, fun _ _ => rfl⟩

/-- Claim C9, counterexample: with `networks = 1` but both `length` and
`end` provided, `lease_create_args` raises `ValueError`, not the `NameError`
the claim asserts for every call with `networks > 0`. -/
theorem C9_counterexample :
    lease_create_args 0 "pubnet" none StartArg.now (some 1000) (some 500) 1 none 0 1
      = Except.error PyError.valueError ∧
    Except.error PyError.valueError
      ≠ (Except.error PyError.nameError : Except PyError LeaseCreateArgs) := by
  exact ⟨rfl, by simp⟩

/-- Claim C9 (amended): for every call to `lease_create_args` with
`networks > 0`, the function raises before returning: a `ValueError` when
both `length` and `end` are provided (that check precedes the reservation
building), and otherwise a `NameError`, because the network reservation
entries reference an undefined variable; in particular such a call never
returns normally, so `lease_create_args` is total only under the
precondition `networks == 0`. -/
theorem C9_lease_create_args (now : Int) (pubid : String) (name : Option String)
    (start : StartArg) (end_ : Option Int) (length : Option Int) (nodes : Nat)
    (props : Option String) (fips : Nat) (networks : Nat) (hn : 0 < networks) :
    (length ≠ none → end_ ≠ none →
      lease_create_args now pubid name start end_ length nodes props fips networks
        = .error .valueError) ∧
    (length = none ∨ end_ = none →
      lease_create_args now pubid name start end_ length nodes props fips networks
        = .error .nameError) ∧
    (∀ args, lease_create_args now pubid name start end_ length nodes props fips networks
        ≠ Except.ok args) := by
  refine ⟨?_, ?_, ?_⟩
  · intro hl he
    rcases length with _ | l
    · exact absurd rfl hl
    rcases end_ with _ | e
    · exact absurd rfl he
    rfl
  · intro hor
    rcases length with _ | l
    · rcases end_ with _ | e
      · simp [lease_create_args, hn]
      · simp [lease_create_args, hn]
    · rcases end_ with _ | e
      · simp [lease_create_args, hn]
      · rcases hor with h1 | h1 <;> exact absurd h1 (by simp)
  · intro args hok
    rcases length with _ | l <;> rcases end_ with _ | e <;>
      simp [lease_create_args, hn] at hok

/-- Witness for C9: with `networks = 1` and neither `length` nor `end`
provided, `lease_create_args` raises `NameError`. -/
theorem C9_witness :
    lease_create_args 0 "pubnet" none StartArg.now none none 1 none 0 1
      = Except.error PyError.nameError :=
  (C9_lease_create_args 0 "pubnet" none StartArg.now none none 1 none 0 1
    (by omega)).2.1 (Or.inl rfl)

theorem pattern_sdr_head (s : String) (h : pattern_sdr s = true) : s.data.head? = some 's' := by
  rw [pattern_sdr] at h
  split at h
  · next heq => rw [heq]; rfl
  · exact absurd h (by simp)

theorem pattern_adv_head (s : String) (h : pattern_adv s = true) : s.data.head? = some 'a' := by
  rw [pattern_adv] at h
  split at h
  · next heq => rw [heq]; rfl
  · exact absurd h (by simp)

theorem pattern_ep5g_head (s : String) (h : pattern_ep5g s = true) :
    s.data.head? = some 'e' := by
  rw [pattern_ep5g] at h
  have hs : s = "ep5g" := eq_of_beq h
  rw [hs]
  decide

theorem pattern_adv_not_sdr (s : String) (h : pattern_adv s = true) :
    pattern_sdr s = false := by
  by_contra hc
  rw [Bool.not_eq_false] at hc
  have h1 := pattern_sdr_head s hc
  have h2 := pattern_adv_head s h
  rw [h1] at h2
  injection h2 with h3
  exact absurd h3 (by decide)

theorem pattern_ep5g_not_sdr (s : String) (h : pattern_ep5g s = true) :
    pattern_sdr s = false := by
  by_contra hc
  rw [Bool.not_eq_false] at hc
  have h1 := pattern_sdr_head s hc
  have h2 := pattern_ep5g_head s h
  rw [h1] at h2
  injection h2 with h3
  exact absurd h3 (by decide)

theorem pattern_ep5g_not_adv (s : String) (h : pattern_ep5g s = true) :
    pattern_adv s = false := by
  by_contra hc
  rw [Bool.not_eq_false] at hc
  have h1 := pattern_adv_head s hc
  have h2 := pattern_ep5g_head s h
  rw [h1] at h2
  injection h2 with h3
  exact absurd h3 (by decide)

theorem get_segment_ids_sdr (name : String) (resp : RadioResponse)
    (hsdr : pattern_sdr name = true) (h200 : resp.status_code = 200) :
    get_segment_ids name resp = (true, resp.json.foldl (fun result kv =>
      let r1 := if strHasSub kv.1 "mango" then dictAssign result "rj45" kv.2 else result
      if strHasSub kv.1 "ni" then dictAssign r1 "sfp" kv.2 else r1) []) := by
  rw [get_segment_ids, if_neg (by simp [hsdr]), if_pos h200, if_pos hsdr]

theorem get_segment_ids_adv (name : String) (resp : RadioResponse)
    (hsdrf : pattern_sdr name = false) (hadv : pattern_adv name = true)
    (h200 : resp.status_code = 200) :
    get_segment_ids name resp = (true, resp.json.foldl (fun result kv =>
      if strHasSub kv.1 "adv" then dictAssign result "rj45" kv.2 else result) []) := by
  rw [get_segment_ids, if_neg (by simp [hadv]), if_pos h200,
    if_neg (by simp [hsdrf]), if_pos hadv]

theorem get_segment_ids_ep5g (name : String) (resp : RadioResponse)
    (hsdrf : pattern_sdr name = false) (hadvf : pattern_adv name = false)
    (hep : pattern_ep5g name = true) (h200 : resp.status_code = 200) :
    get_segment_ids name resp = (true, resp.json.foldl (fun result kv =>
      if strHasSub kv.1 "ep5g" then dictAssign result "rj45" kv.2 else result) []) := by
  rw [get_segment_ids, if_neg (by simp [hep]), if_pos h200,
    if_neg (by simp [hsdrf]), if_neg (by simp [hadvf]), if_pos hep]

theorem sdr_fold_keys (json : List (String × Nat)) :
    ∀ p ∈ json.foldl (fun result kv =>
        let r1 := if strHasSub kv.1 "mango" then dictAssign result "rj45" kv.2 else result
        if strHasSub kv.1 "ni" then dictAssign r1 "sfp" kv.2 else r1) [],
      p.1 = "rj45" ∨ p.1 = "sfp" := by
  refine foldl_keys_invariant (fun s => s = "rj45" ∨ s = "sfp") _ ?_ json [] (by simp)
  intro acc kv q hacc hq
  dsimp only at hq
  have hr1 : ∀ x, x ∈ (if strHasSub kv.1 "mango" then dictAssign acc "rj45" kv.2 else acc) →
      x.1 = "rj45" ∨ x.1 = "sfp" := by
    intro x hx
    by_cases hm : strHasSub kv.1 "mango" = true
    · rw [if_pos hm] at hx
      rcases dictAssign_keys _ _ _ x hx with h1 | h1
      · exact Or.inl h1
      · exact hacc x h1
    · rw [if_neg hm] at hx
      exact hacc x hx
  by_cases hni : strHasSub kv.1 "ni" = true
  · rw [if_pos hni] at hq
    rcases dictAssign_keys _ _ _ q hq with h1 | h1
    · exact Or.inr h1
    · exact hr1 q h1
  · rw [if_neg hni] at hq
    exact hr1 q hq

theorem single_key_fold_keys (key sub : String) (json : List (String × Nat)) :
    ∀ p ∈ json.foldl (fun result kv =>
        if strHasSub kv.1 sub then dictAssign result key kv.2 else result) [],
      p.1 = key := by
  refine foldl_keys_invariant (fun s => s = key) _ ?_ json [] (by simp)
  intro acc kv q hacc hq
  by_cases hs : strHasSub kv.1 sub = true
  · rw [if_pos hs] at hq
    rcases dictAssign_keys _ _ _ q hq with h1 | h1
    · exact h1
    · exact hacc q h1
  · rw [if_neg hs] at hq
    exact hacc q hq

/-- Claim C10: for every `radio_name` matching none of the anchored patterns
`^sdr-\d{2}$`, `^adv-\d{2}$`, `^ep5g$`, both `get_segment_ids` and
`get_radio_interfaces` log an error and return the empty dict without
performing any HTTP request; for an `sdr-xx` name with a 200 response,
`get_segment_ids` returns a dict whose keys are a subset of
`{'rj45', 'sfp'}` (set from response keys containing `'mango'` and `'ni'`
respectively), and for `adv-xx` and `ep5g` names a dict whose keys are a
subset of `{'rj45'}`. -/
theorem C10_radio_patterns :
    (∀ name resp, (pattern_sdr name || pattern_adv name || pattern_ep5g name) = false →
      get_segment_ids name resp = (false, []) ∧ get_radio_interfaces name resp = (false, [])) ∧
    (∀ name resp, pattern_sdr name = true → resp.status_code = 200 →
      ∀ p ∈ (get_segment_ids name resp).2, p.1 = "rj45" ∨ p.1 = "sfp") ∧
    (∀ name resp, pattern_adv name = true ∨ pattern_ep5g name = true →
      resp.status_code = 200 →
      ∀ p ∈ (get_segment_ids name resp).2, p.1 = "rj45") := by
  refine ⟨?_, ?_, ?_⟩
  · intro name resp h
    exact ⟨by simp [get_segment_ids, h], by simp [get_radio_interfaces, h]⟩
  · intro name resp hsdr h200 p hp
    rw [get_segment_ids_sdr name resp hsdr h200] at hp
    exact sdr_fold_keys resp.json p hp
  · intro name resp hor h200 p hp
    rcases hor with hadv | hep
    · rw [get_segment_ids_adv name resp (pattern_adv_not_sdr name hadv) hadv h200] at hp
      exact single_key_fold_keys "rj45" "adv" resp.json p hp
    · rw [get_segment_ids_ep5g name resp (pattern_ep5g_not_sdr name hep)
        (pattern_ep5g_not_adv name hep) hep h200] at hp
      exact single_key_fold_keys "rj45" "ep5g" resp.json p hp

/-- Witness for C10: the name `"bogus"` matches no pattern and yields
`(false, [])` (no HTTP request); for `"sdr-01"` with a 200 response whose
only key contains `"ni"`, the one resulting entry has key `"sfp"`. -/
theorem C10_witness :
    get_segment_ids "bogus" ⟨200, []⟩ = (false, []) ∧
    get_radio_interfaces "bogus" ⟨200, []⟩ = (false, []) ∧
    ((("sfp", 7) : String × Nat).1 = "rj45" ∨ (("sfp", 7) : String × Nat).1 = "sfp") := by
  refine ⟨(C10_radio_patterns.1 "bogus" ⟨200, []⟩ (by decide)).1,
    (C10_radio_patterns.1 "bogus" ⟨200, []⟩ (by decide)).2, ?_⟩
  refine C10_radio_patterns.2.1 "sdr-01" ⟨200, [("ni-x", 7)]⟩ (by decide) rfl ("sfp", 7) ?_
  decide
